import Mathlib

/-
Verification of the drone multi-flight dashboard pipeline (report7.py).

The script reads a directory of per-flight CSV logs with pandas, reconciles
each file against a fixed list of 16 required columns, derives flight_id /
date / time columns, drops rows with unparsable dates, coerces metric
columns to numeric and flightTime to timedelta, builds a per-flight summary
record, fleet-wide KPI aggregates, and chart tables grouped by
year / month / weekday / hour.

This file is a shallow embedding of that pipeline.  Data frames are modelled
as a list of column names plus rows of (column, value) association lists;
pandas missing values (NaN / NaT / pd.NA) are the `Val.na` marker.  Rational
numbers stand in for floating point.  pandas behaviours that matter here and
are modelled explicitly:

* `pd.to_datetime(errors="coerce")` is modelled for ISO `YYYY-MM-DD` strings
  (the shapes exercised by the spec); any unparsable value coerces to `na`.
* `pd.to_numeric(errors="coerce")` parses optionally signed decimal strings.
* `pd.to_timedelta(errors="coerce")` parses `H:MM:SS` strings; bare numbers
  are nanoseconds (the pandas default unit).
* `groupby` on a categorical key emits only observed (flight, bucket) pairs,
  sorted by flight id and then by categorical (calendar / clock) order, as
  in current pandas (`observed=True`).
* Python's builtin `round(x, 2)` is modelled as round-half-to-even at two
  decimal places over exact rationals.

Arithmetic on `ℚ` is written through `Rat.divInt`-based helpers (`qadd`,
`qdiv`, ...) so that every definition evaluates inside the kernel; bridge
lemmas identify them with the ordinary field operations.
-/

deriving instance DecidableEq for Except

namespace Drone

/-- Calendar date (year, month 1-12, day 1-31), the payload of a parsed
`clock.currentDate` cell. -/
structure Date where
  year : Nat
  month : Nat
  day : Nat
deriving DecidableEq, Repr

/-- Time of day in hours, minutes, seconds, the payload of a parsed
`clock.currentTime` cell. -/
structure TimeOfDay where
  hour : Nat
  minute : Nat
  second : Nat
deriving DecidableEq, Repr

/-- A data-frame cell: a pandas scalar.  `na` models NaN / NaT / pd.NA,
`num` a float, `date` a Timestamp date, `time` a Timestamp carrying a
time of day, `dur` a Timedelta measured in seconds. -/
inductive Val where
  | na : Val
  | str : String → Val
  | num : ℚ → Val
  | date : Date → Val
  | time : TimeOfDay → Val
  | dur : ℚ → Val
deriving DecidableEq, Repr

/-- Addition on `ℚ` in a kernel-reducible form. -/
def qadd (a b : ℚ) : ℚ :=
  Rat.divInt (a.num * (b.den : ℤ) + (a.den : ℤ) * b.num) ((a.den : ℤ) * (b.den : ℤ))

/-- Division on `ℚ` in a kernel-reducible form. -/
def qdiv (a b : ℚ) : ℚ :=
  Rat.divInt (a.num * (b.den : ℤ)) ((a.den : ℤ) * b.num)

/-- Negation on `ℚ` in a kernel-reducible form. -/
def qneg (a : ℚ) : ℚ := Rat.divInt (-a.num) (a.den : ℤ)

/-- Subtraction on `ℚ` in a kernel-reducible form. -/
def qsub (a b : ℚ) : ℚ := qadd a (qneg b)

/-- Decidable `≤` on `ℚ` in a kernel-reducible form. -/
def qle (a b : ℚ) : Bool := decide (a.num * (b.den : ℤ) ≤ b.num * (a.den : ℤ))

/-- Decidable `<` on `ℚ` in a kernel-reducible form. -/
def qlt (a b : ℚ) : Bool := decide (a.num * (b.den : ℤ) < b.num * (a.den : ℤ))

/-- Binary maximum on `ℚ` via `qle`. -/
def qmax (a b : ℚ) : ℚ := if qle a b then b else a

/-- Binary minimum on `ℚ` via `qle`. -/
def qmin (a b : ℚ) : ℚ := if qle a b then a else b

/-- Embedding of a natural number into `ℚ` in a kernel-reducible form. -/
def natQ (n : Nat) : ℚ := Rat.divInt (n : ℤ) 1

/-- Embedding of an integer into `ℚ` in a kernel-reducible form. -/
def intQ (n : ℤ) : ℚ := Rat.divInt n 1

/-- Floor of a rational as an integer (`Int.fdiv` rounds toward -∞). -/
def qfloor (q : ℚ) : ℤ := q.num.fdiv (q.den : ℤ)

theorem qadd_eq (a b : ℚ) : qadd a b = a + b := (Rat.add_num_den a b).symm

theorem qdiv_eq (a b : ℚ) : qdiv a b = a / b := (Rat.div_def' a b).symm

theorem qle_iff (a b : ℚ) : qle a b = true ↔ a ≤ b := by
  rw [qle, decide_eq_true_iff, Rat.le_def]

theorem natQ_eq (n : Nat) : natQ n = (n : ℚ) := by
  rw [natQ, Rat.divInt_eq_div]
  push_cast
  exact div_one _

theorem qmax_eq (a b : ℚ) : qmax a b = max a b := by
  rw [qmax, max_comm]
  by_cases h : a ≤ b
  · rw [if_pos ((qle_iff a b).2 h), max_eq_left h]
  · rw [if_neg (fun hq => h ((qle_iff a b).1 hq)), max_eq_right (le_of_not_le h)]

theorem qmin_eq (a b : ℚ) : qmin a b = min a b := by
  rw [qmin]
  by_cases h : a ≤ b
  · rw [if_pos ((qle_iff a b).2 h), min_eq_left h]
  · rw [if_neg (fun hq => h ((qle_iff a b).1 hq)), min_eq_right (le_of_not_le h)]

/-- Python's builtin `round(x, 2)`: round half to even at two decimal
places, over exact rationals. -/
def round2 (q : ℚ) : ℚ :=
  let x : ℚ := Rat.divInt (q.num * 100) (q.den : ℤ)
  let n : ℤ := qfloor x
  let f : ℚ := qsub x (intQ n)
  let half : ℚ := Rat.divInt 1 2
  let r : ℤ :=
    if qlt f half then n
    else if qlt half f then n + 1
    else if n % 2 = 0 then n else n + 1
  Rat.divInt r 100

/-- Character digit test (ASCII '0'..'9'). -/
def isDig (c : Char) : Bool := decide (48 ≤ c.toNat) && decide (c.toNat ≤ 57)

/-- Numeric value of a list of ASCII digits, most significant first. -/
def digsVal (cs : List Char) : Nat := cs.foldl (fun a c => a * 10 + (c.toNat - 48)) 0

/-- Parse a nonempty all-digit character list as a natural number. -/
def parseNatChars (cs : List Char) : Option Nat :=
  if cs.isEmpty then none
  else if cs.all isDig then some (digsVal cs) else none

/-- Split a character list on a separator character (sections may be empty),
like Python's `str.split(sep)`. -/
def splitOnChar (sep : Char) : List Char → List (List Char)
  | [] => [[]]
  | c :: cs =>
    let r := splitOnChar sep cs
    if c = sep then [] :: r
    else
      match r with
      | [] => [[c]]
      | h :: t => (c :: h) :: t

/-- Gregorian leap-year test. -/
def isLeap (y : Nat) : Bool :=
  (y % 4 = 0 && y % 100 ≠ 0) || y % 400 = 0

/-- Number of days in a month of a given year. -/
def daysInMonth (y m : Nat) : Nat :=
  if m = 2 then (if isLeap y then 29 else 28)
  else if m = 4 || m = 6 || m = 9 || m = 11 then 30
  else 31

/-- Parse an ISO `YYYY-MM-DD` date string; this is the shape of
`clock.currentDate` values handled by `pd.to_datetime`; anything else
coerces to `none` (NaT), as does a date outside the nanosecond Timestamp
range (modelled as the full years 1678-2261; the partial boundary years
1677 and 2262 are treated as out of range). -/
def parseDateChars (cs : List Char) : Option Date :=
  match splitOnChar (Char.ofNat 45) cs with
  | [ys, ms, ds] =>
    match parseNatChars ys, parseNatChars ms, parseNatChars ds with
    | some y, some m, some d =>
      if 1678 ≤ y && y ≤ 2261 && 1 ≤ m && m ≤ 12 && 1 ≤ d && d ≤ daysInMonth y m then
        some ⟨y, m, d⟩
      else none
    | _, _, _ => none
  | _ => none

/-- Parse a strict `%H:%M:%S` clock string as in
`pd.to_datetime(..., format="%H:%M:%S")`. -/
def parseTimeChars (cs : List Char) : Option TimeOfDay :=
  match splitOnChar (Char.ofNat 58) cs with
  | [hs, ms, ss] =>
    match parseNatChars hs, parseNatChars ms, parseNatChars ss with
    | some h, some m, some s =>
      if h ≤ 23 && m ≤ 59 && s ≤ 59 then some ⟨h, m, s⟩ else none
    | _, _, _ => none
  | _ => none

/-- Parse an optionally signed decimal string as a rational, the string case
of `pd.to_numeric(errors="coerce")` (scientific notation not modelled). -/
def parseRatChars (cs : List Char) : Option ℚ :=
  let core : List Char → Option ℚ := fun body =>
    match splitOnChar (Char.ofNat 46) body with
    | [ip] =>
      match parseNatChars ip with
      | some n => some (natQ n)
      | none => none
    | [ip, fp] =>
      if (ip.isEmpty && fp.isEmpty) || !(ip.all isDig) || !(fp.all isDig) then none
      else some (Rat.divInt (digsVal ip * 10 ^ fp.length + digsVal fp) ((10 : ℤ) ^ fp.length))
    | _ => none
  match cs with
  | c :: rest =>
    if c = Char.ofNat 45 then (core rest).map qneg
    else if c = Char.ofNat 43 then core rest
    else core cs
  | [] => none

/-- Parse an `H:MM:SS` duration string as seconds, the string case of
`pd.to_timedelta(errors="coerce")` (day components not modelled). -/
def parseDurChars (cs : List Char) : Option ℚ :=
  match splitOnChar (Char.ofNat 58) cs with
  | [hs, ms, ss] =>
    match parseNatChars hs, parseNatChars ms, parseNatChars ss with
    | some h, some m, some s =>
      if m ≤ 59 && s ≤ 59 then some (natQ (h * 3600 + m * 60 + s)) else none
    | _, _, _ => none
  | _ => none

/-- Little-endian decimal digits of `n`, with fuel (structural recursion so
the kernel can evaluate it). -/
def digsAux : Nat → Nat → List Nat
  | 0, _ => []
  | _ + 1, 0 => []
  | f + 1, n + 1 => ((n + 1) % 10) :: digsAux f ((n + 1) / 10)

/-- Value of a little-endian digit list. -/
def digsNum : List Nat → Nat
  | [] => 0
  | d :: ds => d + 10 * digsNum ds

/-- ASCII character of a decimal digit. -/
def digChar (d : Nat) : Char := Char.ofNat (48 + d)

/-- Decimal rendering of a natural number, as Python's `str` / f-string
interpolation produces for a positive integer. -/
def natStr (n : Nat) : String := String.mk (((digsAux n n).map digChar).reverse)

/-- Flight identifier `f"flight_{i}"` assigned sequentially per input file. -/
def flightName (n : Nat) : String := "flight_" ++ natStr n

/-- A data-frame row: an association list from column name to cell value.
A column absent from the list reads as missing. -/
abbrev Row := List (String × Val)

/-- First binding of a column in a row, if any. -/
def lookupV : Row → String → Option Val
  | [], _ => none
  | p :: t, c => if p.1 = c then some p.2 else lookupV t c

/-- Read a cell; a column with no binding is missing (NaN). -/
def getVal (r : Row) (c : String) : Val := (lookupV r c).getD Val.na

/-- Drop every binding of column `c` from a row. -/
def eraseCol (r : Row) (c : String) : Row := r.filter (fun p => decide (p.1 ≠ c))

/-- Write cell `c := v` in a row (pandas column assignment, row level). -/
def setIn (r : Row) (c : String) (v : Val) : Row := eraseCol r c ++ [(c, v)]

/-- A pandas DataFrame: ordered column names and rows. -/
structure DF where
  cols : List String
  rows : List Row
deriving DecidableEq, Repr

/-- The empty `pd.DataFrame()`: no columns, no rows. -/
def emptyDF : DF := ⟨[], []⟩

/-- Column assignment `df[c] = f(row)`: a new column is appended at the end,
an existing one is overwritten in place. -/
def setColF (df : DF) (c : String) (f : Row → Val) : DF :=
  ⟨if c ∈ df.cols then df.cols else df.cols ++ [c],
   df.rows.map (fun r => setIn r c (f r))⟩

/-- Elementwise column transformation `df[c] = g(df[c])`. -/
def mapColV (df : DF) (c : String) (g : Val → Val) : DF :=
  setColF df c (fun r => g (getVal r c))

/-- The values of one column, in row order. -/
def colVals (df : DF) (c : String) : List Val := df.rows.map (fun r => getVal r c)

/-- Column selection `df[cs]`. -/
def selectCols (df : DF) (cs : List String) : DF :=
  ⟨cs, df.rows.map (fun r => cs.map (fun c => (c, getVal r c)))⟩

/-- `pd.DataFrame(list_of_dicts)`: columns are the union of the record keys;
for an empty list there are no columns at all. -/
def mkDF (rows : List Row) : DF :=
  ⟨(rows.flatMap (fun r => r.map Prod.fst)).dedup, rows⟩

/-- `pd.concat(dfs, ignore_index=True)` guarded by the script's emptiness
check (`if dfs else pd.DataFrame()`). -/
def concatDF (dfs : List DF) : DF :=
  if dfs.isEmpty then emptyDF
  else ⟨(dfs.flatMap DF.cols).dedup, dfs.flatMap DF.rows⟩

/-- Column access `df[c]` at frame level: raises `KeyError` when the column
does not exist. -/
def seriesOf (df : DF) (c : String) : Except String (List Val) :=
  if c ∈ df.cols then .ok (colVals df c) else .error ("KeyError: " ++ c)

/-- Missing test (`pd.isna`). -/
def Val.isNa : Val → Bool
  | .na => true
  | _ => false

/-- Is the cell a parsed calendar date? -/
def Val.isDate : Val → Bool
  | .date _ => true
  | _ => false

/-- String payload, if any. -/
def Val.strOf : Val → Option String
  | .str s => some s
  | _ => none

/-- Numeric payload, if any (skipna extraction for numeric columns). -/
def Val.numOf : Val → Option ℚ
  | .num q => some q
  | _ => none

/-- Duration payload, if any (skipna extraction for timedelta columns). -/
def Val.durOf : Val → Option ℚ
  | .dur q => some q
  | _ => none

/-- Cell-level `pd.to_numeric(errors="coerce")`. -/
def toNumeric (v : Val) : Val :=
  match v with
  | .num q => .num q
  | .str s =>
    match parseRatChars s.data with
    | some q => .num q
    | none => .na
  | _ => .na

/-- Cell-level `pd.to_datetime(errors="coerce")` on `clock.currentDate`
values: ISO date strings parse, anything else coerces to NaT (numeric
epoch-nanosecond interpretation is out of the modelled fragment). -/
def toDatetime (v : Val) : Val :=
  match v with
  | .str s =>
    match parseDateChars s.data with
    | some d => .date d
    | none => .na
  | .date d => .date d
  | _ => .na

/-- Cell-level `pd.to_datetime(..., format="%H:%M:%S", errors="coerce")`. -/
def toTimeHMS (v : Val) : Val :=
  match v with
  | .str s =>
    match parseTimeChars s.data with
    | some t => .time t
    | none => .na
  | _ => .na

/-- Cell-level `pd.to_timedelta(errors="coerce")`: duration strings parse,
bare numbers are nanoseconds (pandas default unit). -/
def toTimedelta (v : Val) : Val :=
  match v with
  | .dur q => .dur q
  | .str s =>
    match parseDurChars s.data with
    | some q => .dur q
    | none => .na
  | .num q => .dur (qdiv q (natQ 1000000000))
  | _ => .na

/-- The fixed 16-entry required schema of report7.py. -/
def required_cols : List String :=
  ["Timestamp", "groundSpeed", "airSpeed", "altitudeRelative", "altitudeAMSL",
   "flightDistance", "flightTime", "distanceToHome",
   "battery0.voltage", "battery0.current", "battery0.percentRemaining", "battery0.instantPower",
   "gps.lat", "gps.lon",
   "clock.currentDate", "clock.currentTime"]

/-- The six columns coerced with `pd.to_numeric` in the load loop. -/
def numericCols : List String :=
  ["flightDistance", "altitudeRelative", "groundSpeed", "airSpeed",
   "battery0.percentRemaining", "battery0.instantPower"]

/-- Required columns present in the input file, in required order
(`available_cols` in the script). -/
def availCols (df : DF) : List String :=
  required_cols.filter (fun c => decide (c ∈ df.cols))

/-- Required columns absent from the input file, in required order. -/
def missingCols (df : DF) : List String :=
  required_cols.filter (fun c => !decide (c ∈ df.cols))

/-- Schema reconciliation: select the available required columns, then append
each missing required column filled with NaN (lines 39-45 of the script). -/
def reconcile (df : DF) : DF :=
  ⟨availCols df ++ missingCols df,
   df.rows.map (fun r =>
     (availCols df).map (fun c => (c, getVal r c)) ++
     (missingCols df).map (fun c => (c, Val.na)))⟩

/-- Reconciliation followed by the three derived columns: `flight_id` (from
the file's position), `date` (parsed `clock.currentDate`) and `time`
(parsed `clock.currentTime`). -/
def withMeta (i : Nat) (file : DF) : DF :=
  let d1 := reconcile file
  let d2 := setColF d1 "flight_id" (fun _ => Val.str (flightName (i + 1)))
  let d3 := setColF d2 "date" (fun r => toDatetime (getVal r "clock.currentDate"))
  setColF d3 "time" (fun r => toTimeHMS (getVal r "clock.currentTime"))

/-- Row filter `df["date"].notna()`. -/
def dateOk (r : Row) : Bool := (getVal r "date").isDate

/-- The date filter `df = df[df["date"].notna()]`. -/
def filterDated (df : DF) : DF := ⟨df.cols, df.rows.filter dateOk⟩

/-- The numeric-conversion loop over the six metric columns, at row level. -/
def foldNums (r : Row) : Row :=
  numericCols.foldl (fun acc c => setIn acc c (toNumeric (getVal acc c))) r

/-- Full cell conversion of one row: the six numeric coercions followed by
the `flightTime` timedelta coercion. -/
def convRow (r : Row) : Row :=
  setIn (foldNums r) "flightTime" (toTimedelta (getVal (foldNums r) "flightTime"))

/-- One file's normalized frame: reconcile, derive columns, drop undated
rows, coerce cells (lines 36-62 of the script). -/
def normalizeFile (i : Nat) (file : DF) : DF :=
  let d := filterDated (withMeta i file)
  ⟨d.cols, d.rows.map convRow⟩

/-- One step of a running maximum over present values. -/
def redMaxStep (x : ℚ) : Option ℚ → ℚ
  | none => x
  | some m => qmax x m

/-- Reduction `Series.max()` with skipna: `none` on an all-missing column. -/
def redMax : List ℚ → Option ℚ
  | [] => none
  | x :: xs => some (redMaxStep x (redMax xs))

/-- One step of a running minimum over present values. -/
def redMinStep (x : ℚ) : Option ℚ → ℚ
  | none => x
  | some m => qmin x m

/-- Reduction `Series.min()` with skipna. -/
def redMin : List ℚ → Option ℚ
  | [] => none
  | x :: xs => some (redMinStep x (redMin xs))

/-- Running sum, as the reduction underlying `Series.mean()`. -/
def sumQ (l : List ℚ) : ℚ := l.foldl qadd 0

/-- Reduction `Series.mean()` with skipna: sum over count, `none` when no
value is present. -/
def meanQ (l : List ℚ) : Option ℚ :=
  if l.isEmpty then none else some (qdiv (sumQ l) (natQ l.length))

/-- Repack an optional statistic as a cell with the given tag; an empty
reduction is the missing marker. -/
def optV (tag : ℚ → Val) : Option ℚ → Val
  | none => Val.na
  | some q => tag q

/-- Present values of a numeric column. -/
def numsIn (df : DF) (c : String) : List ℚ := (colVals df c).filterMap Val.numOf

/-- Present values of a timedelta column. -/
def dursIn (df : DF) (c : String) : List ℚ := (colVals df c).filterMap Val.durOf

/-- Cell-level Python `round(x, 2)` lifted over a possibly-missing mean. -/
def roundOpt (o : Option ℚ) : Option ℚ := o.map round2

/-- The per-flight summary record (lines 65-80 of the script), in source
order. -/
def summaryOf (fid : String) (df : DF) : Row :=
  [("flight_id", Val.str fid),
   ("flight_time", optV Val.dur (redMax (dursIn df "flightTime"))),
   ("flight_distance", optV Val.num (redMax (numsIn df "flightDistance"))),
   ("max_altitude", optV Val.num (redMax (numsIn df "altitudeRelative"))),
   ("max_ground_speed", optV Val.num (redMax (numsIn df "groundSpeed"))),
   ("max_air_speed", optV Val.num (redMax (numsIn df "airSpeed"))),
   ("min_battery", optV Val.num (redMin (numsIn df "battery0.percentRemaining"))),
   ("avg_power", optV Val.num (roundOpt (meanQ (numsIn df "battery0.instantPower")))),
   ("avg_altitude", optV Val.num (roundOpt (meanQ (numsIn df "altitudeRelative")))),
   ("avg_flight_time", optV Val.dur (meanQ (dursIn df "flightTime"))),
   ("avg_flight_distance", optV Val.num (roundOpt (meanQ (numsIn df "flightDistance")))),
   ("avg_ground_speed", optV Val.num (roundOpt (meanQ (numsIn df "groundSpeed")))),
   ("avg_air_speed", optV Val.num (roundOpt (meanQ (numsIn df "airSpeed")))),
   ("avg_battery_remaining", optV Val.num (roundOpt (meanQ (numsIn df "battery0.percentRemaining"))))]

/-- Per-flight summary of one input file inside the load loop. -/
def fileSummary (i : Nat) (file : DF) : Row :=
  summaryOf (flightName (i + 1)) (normalizeFile i file)

/-- All per-flight summary records, one per input file, in file order —
appended unconditionally, even when every row of the file was dropped. -/
def summariesOf (files : List DF) : List Row :=
  files.enum.map (fun p => fileSummary p.1 p.2)

/-- `flight_summary = pd.DataFrame(flight_summaries)`. -/
def flightSummaryOf (files : List DF) : DF := mkDF (summariesOf files)

/-- `df_all`: concatenation of all normalized frames. -/
def dfAllOf (files : List DF) : DF :=
  concatDF (files.enum.map (fun p => normalizeFile p.1 p.2))

/-- `gps_all`: concatenation of the GPS projections of all normalized
frames. -/
def gpsAllOf (files : List DF) : DF :=
  concatDF (files.enum.map (fun p =>
    selectCols (normalizeFile p.1 p.2) ["gps.lat", "gps.lon", "flight_id"]))

/-- `Series.nunique()`: count of distinct non-missing values. -/
def nunique (vs : List Val) : Nat :=
  ((vs.filter (fun v => !v.isNa)).dedup).length

/-- The `total_flights` KPI:
`flight_summary["flight_id"].nunique()` (line 110). -/
def totalFlightsKPI (fs : DF) : Except String Nat :=
  (seriesOf fs "flight_id").map nunique

/-- The grouping key selected in the dashboard. -/
inductive GroupKey where
  | year : GroupKey
  | month : GroupKey
  | weekday : GroupKey
  | hour : GroupKey
deriving DecidableEq, Repr

/-- Column name of a grouping key. -/
def gName : GroupKey → String
  | .year => "year"
  | .month => "month"
  | .weekday => "weekday"
  | .hour => "hour"

/-- The fixed month ordering of the script (`month_order`). -/
def monthOrder : List String :=
  ["Jan", "Feb", "Mar", "Apr", "May", "Jun", "Jul", "Aug", "Sep", "Oct", "Nov", "Dec"]

/-- The fixed weekday ordering of the script (`weekday_order`). -/
def weekdayOrder : List String :=
  ["Monday", "Tuesday", "Wednesday", "Thursday", "Friday", "Saturday", "Sunday"]

/-- `strftime("%I %p")` of an hour of day: zero-padded 12-hour clock with
AM/PM suffix. -/
def hourLabel (h : Nat) : String :=
  let h12 : Nat := if h % 12 = 0 then 12 else h % 12
  (if h12 < 10 then "0" ++ natStr h12 else natStr h12) ++
    (if h < 12 then " AM" else " PM")

/-- The fixed 24-entry hour ordering of the script (`hour_order`). -/
def hourOrder : List String := (List.range 24).map hourLabel

/-- Count of days from 1600-01-01 to the first day of year `y` (valid for
the modelled year range, which lies well above 1600). -/
def daysBeforeYear (y : Nat) : Nat :=
  let leaps : Nat → Nat := fun n => n / 4 - n / 100 + n / 400
  (y - 1600) * 365 + (leaps (y - 1) - leaps 1599)

/-- Count of days in year `y` before the first day of month `m`. -/
def daysBeforeMonth (y m : Nat) : Nat :=
  (List.range (m - 1)).foldl (fun a k => a + daysInMonth y (k + 1)) 0

/-- Day count of a date from 1600-01-01 (which was a Saturday). -/
def dayNumber (d : Date) : Nat :=
  daysBeforeYear d.year + daysBeforeMonth d.year d.month + (d.day - 1)

/-- `Timestamp.day_name()`: full weekday name of a date. -/
def dayName (d : Date) : String :=
  weekdayOrder.getD ((dayNumber d + 5) % 7) ""

/-- Cell-level `dt.strftime("%b")`: month abbreviation, NaN on NaT. -/
def monthLabelV (v : Val) : Val :=
  match v with
  | .date d => .str (monthOrder.getD (d.month - 1) "")
  | _ => .na

/-- Cell-level `dt.day_name()`: weekday name, NaN on NaT. -/
def weekdayLabelV (v : Val) : Val :=
  match v with
  | .date d => .str (dayName d)
  | _ => .na

/-- Cell-level `dt.year.astype(str)` for the modelled fragment, in which the
date column has no NaT (the load loop deleted undated rows), so the year
column is integer-typed and renders as plain digits. -/
def yearLabelV (v : Val) : Val :=
  match v with
  | .date d => .str (natStr d.year)
  | _ => .na

/-- Cell-level `dt.hour` on the time column. -/
def hourNumV (v : Val) : Val :=
  match v with
  | .time t => .num (natQ t.hour)
  | _ => .na

/-- The lambda applied to the integer hour column:
`strftime("%I %p")` of the hour value. -/
def hourLabelV (v : Val) : Val :=
  match v with
  | .num q => .str (hourLabel q.num.toNat)
  | _ => .na

/-- Cell-level `pd.Categorical(col, categories=order)`: a value outside the
category list becomes NaN. -/
def catV (order : List String) (v : Val) : Val :=
  match v with
  | .str s => if s ∈ order then .str s else .na
  | _ => .na

/-- The in-place bucket-column derivation of `plot_flight_metrics`
(lines 163-176).  `none` models the `ValueError` that `strptime` raises in
the hour branch when the time column contains a missing value (the whole
column is then float-typed and every rendered value fails the `%H`
format). -/
def addGroupCol (df : DF) (k : GroupKey) : Option DF :=
  match k with
  | .month =>
    some (mapColV (setColF df "month" (fun r => monthLabelV (getVal r "date")))
      "month" (catV monthOrder))
  | .weekday =>
    some (mapColV (setColF df "weekday" (fun r => weekdayLabelV (getVal r "date")))
      "weekday" (catV weekdayOrder))
  | .hour =>
    let d1 := setColF df "hour" (fun r => hourNumV (getVal r "time"))
    if (colVals d1 "hour").any Val.isNa then none
    else some (mapColV (mapColV d1 "hour" hourLabelV) "hour" (catV hourOrder))
  | .year =>
    some (setColF df "year" (fun r => yearLabelV (getVal r "date")))

/-- Lexicographic comparison of character lists by code point. -/
def charsLt : List Char → List Char → Bool
  | [], [] => false
  | [], _ :: _ => true
  | _ :: _, [] => false
  | a :: as, b :: bs =>
    if a.toNat < b.toNat then true
    else if b.toNat < a.toNat then false
    else charsLt as bs

/-- Lexicographic string comparison, the sort order of pandas group keys. -/
def strLt (a b : String) : Bool := charsLt a.data b.data

/-- Ordered insert for the insertion sort below. -/
def insertS (x : String) : List String → List String
  | [] => [x]
  | y :: ys => if strLt y x then y :: insertS x ys else x :: y :: ys

/-- Stable insertion sort of strings, modelling the sorted group keys of
`groupby(sort=True)`. -/
def sortS : List String → List String
  | [] => []
  | x :: xs => insertS x (sortS xs)

/-- String payloads of a column. -/
def strsOf (vs : List Val) : List String := vs.filterMap Val.strOf

/-- The distinct flight ids of the fleet table, in sorted order (the primary
group level). -/
def sortedFids (df : DF) : List String :=
  sortS (strsOf (colVals df "flight_id")).dedup

/-- The candidate bucket labels of a grouping key, in output order: the
fixed calendar/clock enumeration for a categorical key, the sorted observed
labels for the free-form year key. -/
def bucketList (df : DF) : GroupKey → List String
  | .month => monthOrder
  | .weekday => weekdayOrder
  | .hour => hourOrder
  | .year => sortS (strsOf (colVals df "year")).dedup

/-- The rows of one (flight, bucket) group; rows whose bucket label is
missing belong to no group. -/
def groupRowsFor (df : DF) (g f b : String) : List Row :=
  df.rows.filter (fun r =>
    decide (getVal r "flight_id" = Val.str f) && decide (getVal r g = Val.str b))

/-- Group mean of one metric column. -/
def meanVal (vs : List Val) : Val := optV Val.num (meanQ (vs.filterMap Val.numOf))

/-- The grouped mean table `avg_vals` (line 178): one entry per observed
(flight, bucket) pair, flights in sorted order, buckets in the key's fixed
order, carrying the mean of every metric column. -/
def avgVals (df : DF) (k : GroupKey) (ms : List String) :
    List (String × String × List (String × Val)) :=
  (sortedFids df).flatMap (fun f =>
    (bucketList df k).filterMap (fun b =>
      let rs := groupRowsFor df (gName k) f b
      if rs.isEmpty then none
      else some (f, b, ms.map (fun m => (m, meanVal (rs.map (fun r => getVal r m)))))))

/-- The melted rows of one display metric, as the per-metric `subset` of the
chart loop: (flight id, bucket label, mean value). -/
def figTable (groups : List (String × String × List (String × Val)))
    (metrics : List (String × String)) (m : String) : List (String × String × Val) :=
  (metrics.filter (fun p => decide (p.2 = m))).flatMap (fun p =>
    groups.map (fun g => (g.1, g.2.1, getVal g.2.2 p.1)))

/-- The grouper `plot_flight_metrics` (lines 157-215): derive the bucket
column in place, group and melt, then build one chart table per display
metric; an unsupported chart style raises `ValueError` on the first loop
iteration, so no tables are returned — but when the melted table is empty
the loop never runs and an empty chart set is returned without error. -/
def plotFlightMetrics (df : DF) (k : GroupKey) (metrics : List (String × String))
    (ct : String) : Except String (List (String × List (String × String × Val))) :=
  match addGroupCol df k with
  | none => .error "ValueError: time data does not match format %H"
  | some d1 =>
    let groups := avgVals d1 k (metrics.map Prod.fst)
    let names := if groups.isEmpty then [] else (metrics.map Prod.snd).dedup
    if names.isEmpty then .ok []
    else if ct = "line" ∨ ct = "bar" then
      .ok (names.map (fun m => (m, figTable groups metrics m)))
    else .error "ValueError: Unsupported chart_type. Use line or bar."

/-- The metric map the dashboard passes to the grouper (lines 218-223). -/
def scriptMetrics : List (String × String) :=
  [("groundSpeed", "Ground Speed"), ("airSpeed", "Air Speed"),
   ("altitudeRelative", "Altitude"), ("battery0.percentRemaining", "Battery %")]

/-- The source metric columns feeding per-flight statistics. -/
def metricSourceCols : List String :=
  ["flightTime", "flightDistance", "altitudeRelative", "groundSpeed", "airSpeed",
   "battery0.percentRemaining", "battery0.instantPower"]

/-- The summary fields derived from each source metric column (read off the
summary record, lines 65-80). -/
def statsFrom : String → List String
  | "flightTime" => ["flight_time", "avg_flight_time"]
  | "flightDistance" => ["flight_distance", "avg_flight_distance"]
  | "altitudeRelative" => ["max_altitude", "avg_altitude"]
  | "groundSpeed" => ["max_ground_speed", "avg_ground_speed"]
  | "airSpeed" => ["max_air_speed", "avg_air_speed"]
  | "battery0.percentRemaining" => ["min_battery", "avg_battery_remaining"]
  | "battery0.instantPower" => ["avg_power"]
  | _ => []

/-- Spec-side description: the cell is the maximum of the column's present
values (tagged), or the missing marker when none are present. -/
def maxSpec (v : Val) (tag : ℚ → Val) (l : List ℚ) : Prop :=
  (l = [] ∧ v = Val.na) ∨ ∃ m, v = tag m ∧ m ∈ l ∧ ∀ x ∈ l, x ≤ m

/-- Spec-side description: the cell is the minimum of the column's present
values (tagged), or the missing marker when none are present. -/
def minSpec (v : Val) (tag : ℚ → Val) (l : List ℚ) : Prop :=
  (l = [] ∧ v = Val.na) ∨ ∃ m, v = tag m ∧ m ∈ l ∧ ∀ x ∈ l, m ≤ x

/-- Spec-side description: the cell is the column mean rounded to two
decimal places, or the missing marker when no value is present. -/
def meanRSpec (v : Val) (tag : ℚ → Val) (l : List ℚ) : Prop :=
  (l = [] ∧ v = Val.na) ∨ (l ≠ [] ∧ v = tag (round2 (l.sum / (l.length : ℚ))))

/-- Spec-side description: the cell is the unrounded column mean, or the
missing marker when no value is present. -/
def meanSpec (v : Val) (tag : ℚ → Val) (l : List ℚ) : Prop :=
  (l = [] ∧ v = Val.na) ∨ (l ≠ [] ∧ v = tag (l.sum / (l.length : ℚ)))

/-- The net bucket label the grouper writes into the added column, per
grouping key. -/
def bucketLabel (k : GroupKey) (r : Row) : Val :=
  match k with
  | .month => catV monthOrder (monthLabelV (getVal r "date"))
  | .weekday => catV weekdayOrder (weekdayLabelV (getVal r "date"))
  | .hour => catV hourOrder (hourLabelV (hourNumV (getVal r "time")))
  | .year => yearLabelV (getVal r "date")

/-- Scenario file A of the spec: two rows dated 2024-01-10 and 2024-01-11
with ground speeds 5.0 and 7.0 (as read by `pd.read_csv`). -/
def fileA : DF :=
  ⟨["Timestamp", "groundSpeed", "clock.currentDate", "clock.currentTime"],
   [[("Timestamp", Val.str "t0"), ("groundSpeed", Val.num 5),
     ("clock.currentDate", Val.str "2024-01-10"), ("clock.currentTime", Val.str "10:00:00")],
    [("Timestamp", Val.str "t1"), ("groundSpeed", Val.num 7),
     ("clock.currentDate", Val.str "2024-01-11"), ("clock.currentTime", Val.str "10:30:00")]]⟩

/-- Scenario file B of the spec: one row dated 2024-02-01 with ground speed
3.0. -/
def fileB : DF :=
  ⟨["Timestamp", "groundSpeed", "clock.currentDate", "clock.currentTime"],
   [[("Timestamp", Val.str "t0"), ("groundSpeed", Val.num 3),
     ("clock.currentDate", Val.str "2024-02-01"), ("clock.currentTime", Val.str "11:00:00")]]⟩

/-- A file whose single row has an unparsable date, so the date filter
deletes every row. -/
def c4BadFile : DF :=
  ⟨["clock.currentDate"], [[("clock.currentDate", Val.str "garbage")]]⟩

/-- A file with one dated row and no `groundSpeed` column at all. -/
def w5File : DF :=
  ⟨["clock.currentDate"], [[("clock.currentDate", Val.str "2024-01-10")]]⟩

/-- A fleet table with the chart columns but no rows (as arises when every
input row was dropped by the date filter). -/
def c8EmptyFleet : DF :=
  ⟨["flight_id", "date", "time", "groundSpeed", "airSpeed", "altitudeRelative",
    "battery0.percentRemaining"], []⟩

/-- A one-row fleet table for exercising the grouper. -/
def w8Fleet : DF :=
  ⟨["flight_id", "date", "time", "groundSpeed"],
   [[("flight_id", Val.str "flight_1"), ("date", Val.date ⟨2024, 1, 10⟩),
     ("time", Val.time ⟨10, 0, 0⟩), ("groundSpeed", Val.num 5)]]⟩

/-- The one-row fleet table after the grouper's month-column derivation. -/
def w8Grouped : DF :=
  ⟨["flight_id", "date", "time", "groundSpeed", "month"],
   [[("flight_id", Val.str "flight_1"), ("date", Val.date ⟨2024, 1, 10⟩),
     ("time", Val.time ⟨10, 0, 0⟩), ("groundSpeed", Val.num 5),
     ("month", Val.str "Jan")]]⟩

/-! ## Row-level lemmas -/

theorem lookupV_append (l1 l2 : Row) (c : String) :
    lookupV (l1 ++ l2) c = (lookupV l1 c).or (lookupV l2 c) := by
  induction l1 with
  | nil => simp [lookupV]
  | cons p t ih =>
    by_cases h : p.1 = c
    · simp [lookupV, h]
    · simp [lookupV, h, ih]

theorem lookupV_eraseCol_self (r : Row) (c : String) :
    lookupV (eraseCol r c) c = none := by
  induction r with
  | nil => rfl
  | cons p t ih =>
    by_cases h : p.1 = c
    · simpa [eraseCol, List.filter_cons, h] using ih
    · simpa [eraseCol, List.filter_cons, h, lookupV] using ih

theorem lookupV_eraseCol_ne (r : Row) {c c' : String} (h : c' ≠ c) :
    lookupV (eraseCol r c) c' = lookupV r c' := by
  induction r with
  | nil => rfl
  | cons p t ih =>
    by_cases h1 : p.1 = c
    · simpa [eraseCol, List.filter_cons, h1, lookupV, Ne.symm h] using ih
    · by_cases h2 : p.1 = c'
      · simp [eraseCol, List.filter_cons, h1, lookupV, h2, h]
      · simpa [eraseCol, List.filter_cons, h1, lookupV, h2] using ih

theorem getVal_setIn_self (r : Row) (c : String) (v : Val) :
    getVal (setIn r c v) c = v := by
  simp [getVal, setIn, lookupV_append, lookupV_eraseCol_self, lookupV]

theorem getVal_setIn_ne (r : Row) {c c' : String} (v : Val) (h : c' ≠ c) :
    getVal (setIn r c v) c' = getVal r c' := by
  simp [getVal, setIn, lookupV_append, lookupV_eraseCol_ne r h, lookupV, Ne.symm h]

theorem lookupV_keyMap (l : List String) (f : String → Val) (c : String) :
    lookupV (l.map (fun x => (x, f x))) c = if c ∈ l then some (f c) else none := by
  induction l with
  | nil => simp [lookupV]
  | cons a t ih =>
    by_cases h : a = c
    · subst h; simp [lookupV]
    · simp [lookupV, h, ih, Ne.symm h]

/-! ## Conversion-step lemmas -/

theorem getVal_foldSet_notMem (cs : List String) (r : Row) {c : String} (h : c ∉ cs) :
    getVal (cs.foldl (fun acc x => setIn acc x (toNumeric (getVal acc x))) r) c
      = getVal r c := by
  induction cs generalizing r with
  | nil => rfl
  | cons a t ih =>
    rw [List.foldl_cons]
    have hc : c ≠ a := fun hh => h (hh ▸ List.mem_cons_self a t)
    rw [ih _ (fun hm => h (List.mem_cons_of_mem a hm)), getVal_setIn_ne _ _ hc]

theorem getVal_foldSet_mem (cs : List String) (r : Row) {c : String}
    (hnd : cs.Nodup) (h : c ∈ cs) :
    getVal (cs.foldl (fun acc x => setIn acc x (toNumeric (getVal acc x))) r) c
      = toNumeric (getVal r c) := by
  induction cs generalizing r with
  | nil => cases h
  | cons a t ih =>
    rw [List.foldl_cons]
    rcases List.mem_cons.mp h with h1 | h1
    · subst h1
      rw [getVal_foldSet_notMem t _ (List.nodup_cons.mp hnd).1, getVal_setIn_self]
    · have hne : c ≠ a := by
        rintro rfl
        exact (List.nodup_cons.mp hnd).1 h1
      rw [ih _ (List.nodup_cons.mp hnd).2 h1, getVal_setIn_ne _ _ hne]

theorem getVal_convRow_flightTime (r : Row) :
    getVal (convRow r) "flightTime" = toTimedelta (getVal r "flightTime") := by
  have hft : "flightTime" ∉ numericCols := by decide
  rw [convRow, getVal_setIn_self, foldNums, getVal_foldSet_notMem _ _ hft]

theorem getVal_convRow_numeric (r : Row) {c : String} (h : c ∈ numericCols) :
    getVal (convRow r) c = toNumeric (getVal r c) := by
  have hne : c ≠ "flightTime" := by
    have : ∀ x ∈ numericCols, x ≠ "flightTime" := by decide
    exact this c h
  rw [convRow, getVal_setIn_ne _ _ hne, foldNums,
    getVal_foldSet_mem _ _ (by decide) h]

theorem getVal_convRow_other (r : Row) {c : String} (h1 : c ∉ numericCols)
    (h2 : c ≠ "flightTime") : getVal (convRow r) c = getVal r c := by
  rw [convRow, getVal_setIn_ne _ _ h2, foldNums, getVal_foldSet_notMem _ _ h1]

/-! ## Decimal rendering injectivity -/

theorem digsAux_lt10 : ∀ (f n : Nat), ∀ d ∈ digsAux f n, d < 10 := by
  intro f
  induction f with
  | zero => intro n d hd; cases hd
  | succ f ih =>
    intro n d hd
    cases n with
    | zero => cases hd
    | succ m =>
      rcases List.mem_cons.mp hd with h | h
      · subst h; exact Nat.mod_lt _ (by omega)
      · exact ih _ _ h

theorem digsNum_digsAux : ∀ (f n : Nat), n ≤ f → digsNum (digsAux f n) = n := by
  intro f
  induction f with
  | zero => intro n h; interval_cases n; rfl
  | succ f ih =>
    intro n h
    cases n with
    | zero => rfl
    | succ m =>
      have hdiv : (m + 1) / 10 ≤ f := by
        have := Nat.div_lt_self (Nat.succ_pos m) (by omega : 1 < 10)
        omega
      show (m + 1) % 10 + 10 * digsNum (digsAux f ((m + 1) / 10)) = m + 1
      rw [ih _ hdiv]
      exact Nat.mod_add_div _ _

theorem digChar_inj_lt : ∀ d < 10, ∀ e < 10, digChar d = digChar e → d = e := by decide

theorem map_digChar_inj : ∀ (l1 l2 : List Nat), (∀ d ∈ l1, d < 10) → (∀ d ∈ l2, d < 10) →
    l1.map digChar = l2.map digChar → l1 = l2 := by
  intro l1
  induction l1 with
  | nil => intro l2 _ _ h; cases l2 <;> simp_all
  | cons a t ih =>
    intro l2 h1 h2 h
    cases l2 with
    | nil => simp at h
    | cons b s =>
      simp only [List.map_cons, List.cons.injEq] at h
      have ha : a = b :=
        digChar_inj_lt a (h1 a (List.mem_cons_self a t)) b (h2 b (List.mem_cons_self b s)) h.1
      have ht : t = s :=
        ih s (fun d hd => h1 d (List.mem_cons_of_mem a hd))
          (fun d hd => h2 d (List.mem_cons_of_mem b hd)) h.2
      rw [ha, ht]

theorem natStr_injective : Function.Injective natStr := by
  intro a b h
  have hdata : (((digsAux a a).map digChar).reverse) = (((digsAux b b).map digChar).reverse) := by
    have := congrArg String.data h
    simpa [natStr] using this
  have hmap := List.reverse_injective hdata
  have hdigs := map_digChar_inj _ _ (digsAux_lt10 a a) (digsAux_lt10 b b) hmap
  have := congrArg digsNum hdigs
  rwa [digsNum_digsAux a a le_rfl, digsNum_digsAux b b le_rfl] at this

theorem string_append_left_cancel {s a b : String} (h : s ++ a = s ++ b) : a = b := by
  have hd := congrArg String.data h
  rw [String.data_append, String.data_append] at hd
  have := List.append_cancel_left hd
  cases a; cases b; exact congrArg String.mk this

theorem flightName_injective : Function.Injective flightName := by
  intro a b h
  exact natStr_injective (string_append_left_cancel h)

/-! ## Reduction characterizations -/

theorem redMax_char (l : List ℚ) :
    (l = [] ∧ redMax l = none) ∨
    ∃ m, redMax l = some m ∧ m ∈ l ∧ ∀ x ∈ l, x ≤ m := by
  induction l with
  | nil => exact Or.inl ⟨rfl, rfl⟩
  | cons a t ih =>
    right
    rcases ih with ⟨ht, hnone⟩ | ⟨m, hm, hmem, hub⟩
    · subst ht
      exact ⟨a, rfl, List.mem_cons_self a [], by simp⟩
    · refine ⟨max a m, ?_, ?_, ?_⟩
      · show some (redMaxStep a (redMax t)) = _
        rw [hm]
        show some (qmax a m) = _
        rw [qmax_eq]
      · rcases max_choice a m with h | h <;> rw [h]
        · exact List.mem_cons_self a t
        · exact List.mem_cons_of_mem a hmem
      · intro x hx
        rcases List.mem_cons.mp hx with h | h
        · subst h; exact le_max_left _ _
        · exact le_trans (hub x h) (le_max_right _ _)

theorem redMin_char (l : List ℚ) :
    (l = [] ∧ redMin l = none) ∨
    ∃ m, redMin l = some m ∧ m ∈ l ∧ ∀ x ∈ l, m ≤ x := by
  induction l with
  | nil => exact Or.inl ⟨rfl, rfl⟩
  | cons a t ih =>
    right
    rcases ih with ⟨ht, hnone⟩ | ⟨m, hm, hmem, hlb⟩
    · subst ht
      exact ⟨a, rfl, List.mem_cons_self a [], by simp⟩
    · refine ⟨min a m, ?_, ?_, ?_⟩
      · show some (redMinStep a (redMin t)) = _
        rw [hm]
        show some (qmin a m) = _
        rw [qmin_eq]
      · rcases min_choice a m with h | h <;> rw [h]
        · exact List.mem_cons_self a t
        · exact List.mem_cons_of_mem a hmem
      · intro x hx
        rcases List.mem_cons.mp hx with h | h
        · subst h; exact min_le_left _ _
        · exact le_trans (min_le_right _ _) (hlb x h)

theorem foldl_qadd (l : List ℚ) : ∀ a : ℚ, l.foldl qadd a = a + l.sum := by
  induction l with
  | nil => intro a; simp
  | cons x t ih =>
    intro a
    rw [List.foldl_cons, ih, qadd_eq, List.sum_cons, add_assoc]

theorem sumQ_eq (l : List ℚ) : sumQ l = l.sum := by
  rw [sumQ, foldl_qadd, zero_add]

theorem meanQ_eq_none (l : List ℚ) (h : l = []) : meanQ l = none := by
  subst h; rfl

theorem meanQ_eq_some (l : List ℚ) (h : l ≠ []) :
    meanQ l = some (l.sum / (l.length : ℚ)) := by
  rw [meanQ, if_neg (by simpa [List.isEmpty_iff] using h), qdiv_eq, sumQ_eq, natQ_eq]

/-! ## Reconciliation lemmas -/

theorem mem_availCols {file : DF} {c : String} :
    c ∈ availCols file ↔ c ∈ required_cols ∧ c ∈ file.cols := by
  simp [availCols, List.mem_filter]

theorem mem_missingCols {file : DF} {c : String} :
    c ∈ missingCols file ↔ c ∈ required_cols ∧ c ∉ file.cols := by
  simp [missingCols, List.mem_filter]

theorem reconcile_cols_perm (file : DF) :
    (reconcile file).cols.Perm required_cols :=
  List.filter_append_perm _ _

theorem reconcile_row_keys (file : DF) (r : Row) :
    ((availCols file).map (fun c => (c, getVal r c)) ++
      (missingCols file).map (fun c => (c, Val.na))).map Prod.fst
      = (reconcile file).cols := by
  show List.map Prod.fst (_ ++ _) = _
  rw [List.map_append, List.map_map, List.map_map]
  have h1 : (Prod.fst ∘ fun c : String => (c, getVal r c)) = fun c => c := rfl
  have h2 : (Prod.fst ∘ fun c : String => (c, Val.na)) = fun c => c := rfl
  rw [h1, h2, List.map_id', List.map_id']
  rfl

theorem getVal_reconcile_row (file : DF) (r : Row) (c : String)
    (hc : c ∈ required_cols) :
    getVal ((availCols file).map (fun x => (x, getVal r x)) ++
      (missingCols file).map (fun x => (x, Val.na))) c
      = if c ∈ file.cols then getVal r c else Val.na := by
  by_cases h : c ∈ file.cols
  · have ha : c ∈ availCols file := mem_availCols.mpr ⟨hc, h⟩
    rw [if_pos h, getVal, lookupV_append, lookupV_keyMap, if_pos ha]
    rfl
  · have hna : c ∉ availCols file := fun hh => h (mem_availCols.mp hh).2
    have hm : c ∈ missingCols file := mem_missingCols.mpr ⟨hc, h⟩
    rw [if_neg h, getVal, lookupV_append, lookupV_keyMap, if_neg hna,
      lookupV_keyMap, if_pos hm]
    rfl

/-! ## Normalization lemmas -/

theorem getVal_withMeta_preserved (i : Nat) (file : DF) {c : String}
    (hne1 : c ≠ "flight_id") (hne2 : c ≠ "date") (hne3 : c ≠ "time") :
    ∀ r ∈ (withMeta i file).rows, ∃ r0 ∈ (reconcile file).rows,
      getVal r c = getVal r0 c := by
  intro r hr
  simp only [withMeta, setColF] at hr
  rw [List.mem_map] at hr
  obtain ⟨r2, hr2, rfl⟩ := hr
  rw [List.mem_map] at hr2
  obtain ⟨r1, hr1, rfl⟩ := hr2
  rw [List.mem_map] at hr1
  obtain ⟨r0, hr0, rfl⟩ := hr1
  refine ⟨r0, hr0, ?_⟩
  rw [getVal_setIn_ne _ _ hne3, getVal_setIn_ne _ _ hne2, getVal_setIn_ne _ _ hne1]

theorem colVals_normalize_allNa (i : Nat) (file : DF) {c : String}
    (hmem : c ∈ metricSourceCols) (habs : c ∉ file.cols) :
    ∀ v ∈ colVals (normalizeFile i file) c, v = Val.na := by
  intro v hv
  rw [colVals, List.mem_map] at hv
  obtain ⟨r, hr, rfl⟩ := hv
  simp only [normalizeFile, filterDated] at hr
  rw [List.mem_map] at hr
  obtain ⟨rf, hrf, rfl⟩ := hr
  have hrw : rf ∈ (withMeta i file).rows := List.mem_of_mem_filter hrf
  have hnes : c ≠ "flight_id" ∧ c ≠ "date" ∧ c ≠ "time" := by
    have h3 : ∀ x ∈ metricSourceCols, x ≠ "flight_id" ∧ x ≠ "date" ∧ x ≠ "time" := by decide
    exact h3 c hmem
  obtain ⟨r0, hr0, hval⟩ :=
    getVal_withMeta_preserved i file hnes.1 hnes.2.1 hnes.2.2 rf hrw
  have hreq : c ∈ required_cols := by
    have h4 : ∀ x ∈ metricSourceCols, x ∈ required_cols := by decide
    exact h4 c hmem
  have hna : getVal rf c = Val.na := by
    simp only [reconcile] at hr0
    rw [List.mem_map] at hr0
    obtain ⟨rb, hrb, rfl⟩ := hr0
    rw [hval, getVal_reconcile_row file rb c hreq, if_neg habs]
  rcases (by decide : ∀ x ∈ metricSourceCols, x = "flightTime" ∨ x ∈ numericCols) c hmem
    with hft | hnum
  · subst hft
    rw [getVal_convRow_flightTime, hna]
    rfl
  · rw [getVal_convRow_numeric _ hnum, hna]
    rfl

/-! ## Summary field projections -/

theorem summary_flight_time (fid : String) (df : DF) :
    getVal (summaryOf fid df) "flight_time"
      = optV Val.dur (redMax (dursIn df "flightTime")) := rfl

theorem summary_flight_distance (fid : String) (df : DF) :
    getVal (summaryOf fid df) "flight_distance"
      = optV Val.num (redMax (numsIn df "flightDistance")) := rfl

theorem summary_max_altitude (fid : String) (df : DF) :
    getVal (summaryOf fid df) "max_altitude"
      = optV Val.num (redMax (numsIn df "altitudeRelative")) := rfl

theorem summary_max_ground_speed (fid : String) (df : DF) :
    getVal (summaryOf fid df) "max_ground_speed"
      = optV Val.num (redMax (numsIn df "groundSpeed")) := rfl

theorem summary_max_air_speed (fid : String) (df : DF) :
    getVal (summaryOf fid df) "max_air_speed"
      = optV Val.num (redMax (numsIn df "airSpeed")) := rfl

theorem summary_min_battery (fid : String) (df : DF) :
    getVal (summaryOf fid df) "min_battery"
      = optV Val.num (redMin (numsIn df "battery0.percentRemaining")) := rfl

theorem summary_avg_power (fid : String) (df : DF) :
    getVal (summaryOf fid df) "avg_power"
      = optV Val.num (roundOpt (meanQ (numsIn df "battery0.instantPower"))) := rfl

theorem summary_avg_altitude (fid : String) (df : DF) :
    getVal (summaryOf fid df) "avg_altitude"
      = optV Val.num (roundOpt (meanQ (numsIn df "altitudeRelative"))) := rfl

theorem summary_avg_flight_time (fid : String) (df : DF) :
    getVal (summaryOf fid df) "avg_flight_time"
      = optV Val.dur (meanQ (dursIn df "flightTime")) := rfl

theorem summary_avg_flight_distance (fid : String) (df : DF) :
    getVal (summaryOf fid df) "avg_flight_distance"
      = optV Val.num (roundOpt (meanQ (numsIn df "flightDistance"))) := rfl

theorem summary_avg_ground_speed (fid : String) (df : DF) :
    getVal (summaryOf fid df) "avg_ground_speed"
      = optV Val.num (roundOpt (meanQ (numsIn df "groundSpeed"))) := rfl

theorem summary_avg_air_speed (fid : String) (df : DF) :
    getVal (summaryOf fid df) "avg_air_speed"
      = optV Val.num (roundOpt (meanQ (numsIn df "airSpeed"))) := rfl

theorem summary_avg_battery_remaining (fid : String) (df : DF) :
    getVal (summaryOf fid df) "avg_battery_remaining"
      = optV Val.num (roundOpt (meanQ (numsIn df "battery0.percentRemaining"))) := rfl

theorem summary_flight_id (fid : String) (df : DF) :
    getVal (summaryOf fid df) "flight_id" = Val.str fid := rfl

/-! ## Claim C1 -/

/-- C1: for every input file, the reconciled frame's column set is exactly
the 16 required columns (as a permutation of the required list), and every
row pairs each required column with the file's value when the file has the
column and with the missing marker when it does not, while columns outside
the required list are dropped (the rows carry exactly the reconciled
columns). -/
theorem C1_schema_reconciliation (file : DF) :
    (reconcile file).cols.Perm required_cols ∧
    List.Forall₂ (fun r r' =>
      r'.map Prod.fst = (reconcile file).cols ∧
      ∀ c ∈ required_cols,
        getVal r' c = if c ∈ file.cols then getVal r c else Val.na)
      file.rows (reconcile file).rows := by
  refine ⟨reconcile_cols_perm file, ?_⟩
  have hrows : (reconcile file).rows
      = file.rows.map (fun r =>
          (availCols file).map (fun c => (c, getVal r c)) ++
          (missingCols file).map (fun c => (c, Val.na))) := rfl
  rw [hrows, List.forall₂_map_right_iff, List.forall₂_same]
  intro r _
  exact ⟨reconcile_row_keys file r, fun c hc => getVal_reconcile_row file r c hc⟩

/-! ## Claim C5 -/

/-- C5: for every input file and flight position, if a source metric column
is entirely absent from the file, then every per-flight summary statistic
derived from that column is the missing marker. -/
theorem C5_missing_column_stats (i : Nat) (file : DF) (c s : String)
    (hmem : c ∈ metricSourceCols) (habs : c ∉ file.cols) (hs : s ∈ statsFrom c) :
    getVal (fileSummary i file) s = Val.na := by
  have hall := colVals_normalize_allNa i file hmem habs
  have hfs : fileSummary i file
      = summaryOf (flightName (i + 1)) (normalizeFile i file) := rfl
  have hnum : ∀ c', c' = c → numsIn (normalizeFile i file) c' = [] := by
    rintro c' rfl
    rw [numsIn, List.filterMap_eq_nil_iff]
    intro v hv
    rw [hall v hv]
    rfl
  have hdur : ∀ c', c' = c → dursIn (normalizeFile i file) c' = [] := by
    rintro c' rfl
    rw [dursIn, List.filterMap_eq_nil_iff]
    intro v hv
    rw [hall v hv]
    rfl
  have hc : c = "flightTime" ∨ c = "flightDistance" ∨ c = "altitudeRelative" ∨
      c = "groundSpeed" ∨ c = "airSpeed" ∨ c = "battery0.percentRemaining" ∨
      c = "battery0.instantPower" := by
    simpa [metricSourceCols] using hmem
  rcases hc with rfl | rfl | rfl | rfl | rfl | rfl | rfl
  · have hsv : s = "flight_time" ∨ s = "avg_flight_time" := by
      have he : statsFrom "flightTime" = ["flight_time", "avg_flight_time"] := rfl
      rw [he] at hs
      simpa using hs
    rcases hsv with rfl | rfl
    · rw [hfs, summary_flight_time, hdur _ rfl]
      rfl
    · rw [hfs, summary_avg_flight_time, hdur _ rfl]
      rfl
  · have hsv : s = "flight_distance" ∨ s = "avg_flight_distance" := by
      have he : statsFrom "flightDistance" = ["flight_distance", "avg_flight_distance"] := rfl
      rw [he] at hs
      simpa using hs
    rcases hsv with rfl | rfl
    · rw [hfs, summary_flight_distance, hnum _ rfl]
      rfl
    · rw [hfs, summary_avg_flight_distance, hnum _ rfl]
      rfl
  · have hsv : s = "max_altitude" ∨ s = "avg_altitude" := by
      have he : statsFrom "altitudeRelative" = ["max_altitude", "avg_altitude"] := rfl
      rw [he] at hs
      simpa using hs
    rcases hsv with rfl | rfl
    · rw [hfs, summary_max_altitude, hnum _ rfl]
      rfl
    · rw [hfs, summary_avg_altitude, hnum _ rfl]
      rfl
  · have hsv : s = "max_ground_speed" ∨ s = "avg_ground_speed" := by
      have he : statsFrom "groundSpeed" = ["max_ground_speed", "avg_ground_speed"] := rfl
      rw [he] at hs
      simpa using hs
    rcases hsv with rfl | rfl
    · rw [hfs, summary_max_ground_speed, hnum _ rfl]
      rfl
    · rw [hfs, summary_avg_ground_speed, hnum _ rfl]
      rfl
  · have hsv : s = "max_air_speed" ∨ s = "avg_air_speed" := by
      have he : statsFrom "airSpeed" = ["max_air_speed", "avg_air_speed"] := rfl
      rw [he] at hs
      simpa using hs
    rcases hsv with rfl | rfl
    · rw [hfs, summary_max_air_speed, hnum _ rfl]
      rfl
    · rw [hfs, summary_avg_air_speed, hnum _ rfl]
      rfl
  · have hsv : s = "min_battery" ∨ s = "avg_battery_remaining" := by
      have he : statsFrom "battery0.percentRemaining"
          = ["min_battery", "avg_battery_remaining"] := rfl
      rw [he] at hs
      simpa using hs
    rcases hsv with rfl | rfl
    · rw [hfs, summary_min_battery, hnum _ rfl]
      rfl
    · rw [hfs, summary_avg_battery_remaining, hnum _ rfl]
      rfl
  · have hsv : s = "avg_power" := by
      have he : statsFrom "battery0.instantPower" = ["avg_power"] := rfl
      rw [he] at hs
      simpa using hs
    subst hsv
    rw [hfs, summary_avg_power, hnum _ rfl]
    rfl

/-- Witness for C5: a file without a `groundSpeed` column yields a missing
`max_ground_speed` summary statistic. -/
theorem C5_missing_column_stats_witness :
    ("groundSpeed" ∈ metricSourceCols ∧ "groundSpeed" ∉ w5File.cols ∧
      "max_ground_speed" ∈ statsFrom "groundSpeed") ∧
    getVal (fileSummary 0 w5File) "max_ground_speed" = Val.na :=
  ⟨⟨by decide, by decide, by decide⟩,
    C5_missing_column_stats 0 w5File "groundSpeed" "max_ground_speed"
      (by decide) (by decide) (by decide)⟩

/-! ## Claim C6 -/

/-- C6: every row surviving normalization has a parsed (non-missing) date,
and the normalized rows are exactly the date-valid rows of the derived
frame, in their original order, with cell coercions applied. -/
theorem C6_date_filter_invariant (i : Nat) (file : DF) :
    (∀ r ∈ (normalizeFile i file).rows, (getVal r "date").isDate = true) ∧
    (normalizeFile i file).rows
      = ((withMeta i file).rows.filter dateOk).map convRow := by
  constructor
  · intro r hr
    simp only [normalizeFile, filterDated] at hr
    rw [List.mem_map] at hr
    obtain ⟨rf, hrf, rfl⟩ := hr
    have hok : dateOk rf = true := (List.mem_filter.mp hrf).2
    have hpres : getVal (convRow rf) "date" = getVal rf "date" :=
      getVal_convRow_other _ (by decide) (by decide)
    rw [hpres]
    exact hok
  · rfl

/-! ## Claim C2 -/

theorem optV_redMax_maxSpec (tag : ℚ → Val) (l : List ℚ) :
    maxSpec (optV tag (redMax l)) tag l := by
  rcases redMax_char l with ⟨h, hn⟩ | ⟨m, hm, hmem, hub⟩
  · refine Or.inl ⟨h, ?_⟩
    rw [hn]
    rfl
  · refine Or.inr ⟨m, ?_, hmem, hub⟩
    rw [hm]
    rfl

theorem optV_redMin_minSpec (tag : ℚ → Val) (l : List ℚ) :
    minSpec (optV tag (redMin l)) tag l := by
  rcases redMin_char l with ⟨h, hn⟩ | ⟨m, hm, hmem, hlb⟩
  · refine Or.inl ⟨h, ?_⟩
    rw [hn]
    rfl
  · refine Or.inr ⟨m, ?_, hmem, hlb⟩
    rw [hm]
    rfl

theorem optV_meanR_spec (tag : ℚ → Val) (l : List ℚ) :
    meanRSpec (optV tag (roundOpt (meanQ l))) tag l := by
  by_cases h : l = []
  · subst h
    exact Or.inl ⟨rfl, rfl⟩
  · refine Or.inr ⟨h, ?_⟩
    rw [meanQ_eq_some l h]
    rfl

theorem optV_mean_spec (tag : ℚ → Val) (l : List ℚ) :
    meanSpec (optV tag (meanQ l)) tag l := by
  by_cases h : l = []
  · subst h
    exact Or.inl ⟨rfl, rfl⟩
  · refine Or.inr ⟨h, ?_⟩
    rw [meanQ_eq_some l h]
    rfl

/-- C2: each per-flight summary field matches the spec's description of it:
`flight_time`, `flight_distance`, `max_altitude`, `max_ground_speed` and
`max_air_speed` are maxima of their columns' present values (`flight_time`
over the duration column), `min_battery` is the column minimum, the six
`avg_*` numeric statistics are column means rounded to two decimal places,
and `avg_flight_time` is the unrounded mean of the duration column; each is
the missing marker exactly when its column has no present value. -/
theorem C2_summary_statistics (fid : String) (df : DF) :
    maxSpec (getVal (summaryOf fid df) "flight_time") Val.dur
      (dursIn df "flightTime") ∧
    maxSpec (getVal (summaryOf fid df) "flight_distance") Val.num
      (numsIn df "flightDistance") ∧
    maxSpec (getVal (summaryOf fid df) "max_altitude") Val.num
      (numsIn df "altitudeRelative") ∧
    maxSpec (getVal (summaryOf fid df) "max_ground_speed") Val.num
      (numsIn df "groundSpeed") ∧
    maxSpec (getVal (summaryOf fid df) "max_air_speed") Val.num
      (numsIn df "airSpeed") ∧
    minSpec (getVal (summaryOf fid df) "min_battery") Val.num
      (numsIn df "battery0.percentRemaining") ∧
    meanRSpec (getVal (summaryOf fid df) "avg_power") Val.num
      (numsIn df "battery0.instantPower") ∧
    meanRSpec (getVal (summaryOf fid df) "avg_altitude") Val.num
      (numsIn df "altitudeRelative") ∧
    meanRSpec (getVal (summaryOf fid df) "avg_flight_distance") Val.num
      (numsIn df "flightDistance") ∧
    meanRSpec (getVal (summaryOf fid df) "avg_ground_speed") Val.num
      (numsIn df "groundSpeed") ∧
    meanRSpec (getVal (summaryOf fid df) "avg_air_speed") Val.num
      (numsIn df "airSpeed") ∧
    meanRSpec (getVal (summaryOf fid df) "avg_battery_remaining") Val.num
      (numsIn df "battery0.percentRemaining") ∧
    meanSpec (getVal (summaryOf fid df) "avg_flight_time") Val.dur
      (dursIn df "flightTime") := by
  refine ⟨?_, ?_, ?_, ?_, ?_, ?_, ?_, ?_, ?_, ?_, ?_, ?_, ?_⟩
  · rw [summary_flight_time]
    exact optV_redMax_maxSpec _ _
  · rw [summary_flight_distance]
    exact optV_redMax_maxSpec _ _
  · rw [summary_max_altitude]
    exact optV_redMax_maxSpec _ _
  · rw [summary_max_ground_speed]
    exact optV_redMax_maxSpec _ _
  · rw [summary_max_air_speed]
    exact optV_redMax_maxSpec _ _
  · rw [summary_min_battery]
    exact optV_redMin_minSpec _ _
  · rw [summary_avg_power]
    exact optV_meanR_spec _ _
  · rw [summary_avg_altitude]
    exact optV_meanR_spec _ _
  · rw [summary_avg_flight_distance]
    exact optV_meanR_spec _ _
  · rw [summary_avg_ground_speed]
    exact optV_meanR_spec _ _
  · rw [summary_avg_air_speed]
    exact optV_meanR_spec _ _
  · rw [summary_avg_battery_remaining]
    exact optV_meanR_spec _ _
  · rw [summary_avg_flight_time]
    exact optV_mean_spec _ _

/-! ## Claim C4 -/

theorem flightSummary_has_fid {files : List DF} (h : files ≠ []) :
    "flight_id" ∈ (flightSummaryOf files).cols := by
  obtain ⟨f, fs, rfl⟩ := List.exists_cons_of_ne_nil h
  simp only [flightSummaryOf, mkDF]
  rw [List.mem_dedup, List.mem_flatMap]
  refine ⟨fileSummary 0 f, ?_, ?_⟩
  · have hhead : summariesOf (f :: fs)
        = fileSummary 0 f :: (List.enumFrom 1 fs).map (fun p => fileSummary p.1 p.2) := rfl
    rw [hhead]
    exact List.mem_cons_self _ _
  · have hk : (fileSummary 0 f).map Prod.fst
        = ["flight_id", "flight_time", "flight_distance", "max_altitude",
           "max_ground_speed", "max_air_speed", "min_battery", "avg_power",
           "avg_altitude", "avg_flight_time", "avg_flight_distance",
           "avg_ground_speed", "avg_air_speed", "avg_battery_remaining"] := rfl
    rw [hk]
    decide

theorem colVals_summary_fid (files : List DF) :
    colVals (flightSummaryOf files) "flight_id"
      = files.enum.map (fun p => Val.str (flightName (p.1 + 1))) := by
  show (summariesOf files).map (fun r => getVal r "flight_id") = _
  rw [summariesOf, List.map_map]
  rfl

theorem nunique_fid (files : List DF) :
    nunique (colVals (flightSummaryOf files) "flight_id") = files.length := by
  rw [colVals_summary_fid, nunique]
  have hfilter : (files.enum.map (fun p => Val.str (flightName (p.1 + 1)))).filter
      (fun v => !v.isNa) = files.enum.map (fun p => Val.str (flightName (p.1 + 1))) := by
    rw [List.filter_eq_self]
    intro a ha
    rw [List.mem_map] at ha
    obtain ⟨p, _, rfl⟩ := ha
    rfl
  rw [hfilter]
  have hmap : files.enum.map (fun p => Val.str (flightName (p.1 + 1)))
      = (List.range files.length).map (fun n => Val.str (flightName (n + 1))) := by
    rw [← List.enum_map_fst files, List.map_map]
    rfl
  rw [hmap]
  have hnd : ((List.range files.length).map
      (fun n => Val.str (flightName (n + 1)))).Nodup := by
    refine List.Nodup.map ?_ (List.nodup_range _)
    intro a b hab
    have h1 : flightName (a + 1) = flightName (b + 1) := by
      injection hab
    have h2 := flightName_injective h1
    omega
  rw [hnd.dedup, List.length_map, List.length_range]

/-- C4 (amended): `total_flights` equals the number of successfully-loaded
input files — a summary record is appended for every file, so files whose
every row was dropped by the date filter still count. -/
theorem C4_total_flights_counts_files (files : List DF) (h : files ≠ []) :
    totalFlightsKPI (flightSummaryOf files) = Except.ok files.length := by
  have hc := flightSummary_has_fid h
  simp only [totalFlightsKPI, seriesOf]
  rw [if_pos hc]
  show Except.ok (nunique (colVals (flightSummaryOf files) "flight_id")) = _
  rw [nunique_fid]

/-- Witness for the amended C4 at a concrete one-file input. -/
theorem C4_total_flights_counts_files_witness :
    ([c4BadFile] ≠ ([] : List DF)) ∧
    totalFlightsKPI (flightSummaryOf [c4BadFile]) = Except.ok 1 :=
  ⟨by decide, C4_total_flights_counts_files [c4BadFile] (by decide)⟩

/-- Counterexample to C4 as stated: one successfully-loaded file whose
every row is dropped for an unparsable date; the claim predicts
`total_flights` = 1 - 1 = 0, but the pipeline yields 1. -/
theorem C4_counterexample_all_rows_dropped :
    totalFlightsKPI (flightSummaryOf [c4BadFile]) = Except.ok 1 ∧
    (normalizeFile 0 c4BadFile).rows = [] ∧
    c4BadFile.rows.length = 1 ∧
    totalFlightsKPI (flightSummaryOf [c4BadFile]) ≠ Except.ok 0 := by
  decide

/-! ## Claim C3 -/

/-- C3: on the spec's two-file scenario the pipeline yields
`total_flights` = 2, per-flight `avg_ground_speed` 6.00 for flight_1 and
3.00 for flight_2, and grouping by month yields exactly the buckets
(flight_1, "Jan", 6.00) and (flight_2, "Feb", 3.00) in the Ground Speed
chart table. -/
theorem C3_two_file_scenario :
    totalFlightsKPI (flightSummaryOf [fileA, fileB]) = Except.ok 2 ∧
    (summariesOf [fileA, fileB]).map
      (fun s => (getVal s "flight_id", getVal s "avg_ground_speed"))
      = [(Val.str "flight_1", Val.num 6), (Val.str "flight_2", Val.num 3)] ∧
    (plotFlightMetrics (dfAllOf [fileA, fileB]) GroupKey.month scriptMetrics
      "line").map (fun figs => List.lookup "Ground Speed" figs)
      = Except.ok (some [("flight_1", "Jan", Val.num 6),
                         ("flight_2", "Feb", Val.num 3)]) := by
  decide

/-! ## Claim C9 -/

/-- C9 (bug evidence): on an empty input directory the summary tables are
empty, but the `total_flights` KPI raises `KeyError: flight_id` because the
empty summary frame has no columns — contradicting the spec's "computed
without erroring". -/
theorem C9_empty_dir_keyerror :
    (flightSummaryOf []).rows = [] ∧ (flightSummaryOf []).cols = [] ∧
    gpsAllOf [] = emptyDF ∧ dfAllOf [] = emptyDF ∧
    totalFlightsKPI (flightSummaryOf [])
      = Except.error "KeyError: flight_id" := by
  decide

/-! ## Grouper lemmas -/

theorem avgVals_eq (df : DF) (k : GroupKey) (ms : List String) :
    avgVals df k ms = (sortedFids df).flatMap (fun f =>
      (bucketList df k).filterMap (fun b =>
        if (groupRowsFor df (gName k) f b).isEmpty then none
        else some (f, b, ms.map (fun m =>
          (m, meanVal ((groupRowsFor df (gName k) f b).map (fun r => getVal r m))))))) :=
  rfl

theorem mem_filterMap_ite {L : List String} {f : String} {Q : String → Bool}
    {T : String → List (String × Val)} {x : String × String × List (String × Val)}
    (hx : x ∈ L.filterMap (fun b => if Q b then none else some (f, b, T b))) :
    x.1 = f ∧ x.2.1 ∈ L := by
  rw [List.mem_filterMap] at hx
  obtain ⟨b, hb, hbx⟩ := hx
  by_cases hq : Q b
  · rw [if_pos hq] at hbx
    cases hbx
  · rw [if_neg hq] at hbx
    obtain rfl := Option.some.inj hbx
    exact ⟨rfl, hb⟩

theorem map_proj_filterMap_ite (L : List String) (f : String) (Q : String → Bool)
    (T : String → List (String × Val)) :
    ((L.filterMap (fun b => if Q b then none else some (f, b, T b))).map
      (fun x => x.2.1)).Sublist L := by
  induction L with
  | nil => simp
  | cons b t ih =>
    by_cases hq : Q b
    · simp only [List.filterMap_cons, if_pos hq]
      exact ih.cons b
    · simp only [List.filterMap_cons, if_neg hq, List.map_cons]
      exact ih.cons₂ b

theorem insertS_perm (x : String) (l : List String) : (insertS x l).Perm (x :: l) := by
  induction l with
  | nil => exact List.Perm.refl _
  | cons y ys ih =>
    by_cases h : strLt y x
    · show (if strLt y x then y :: insertS x ys else x :: y :: ys).Perm _
      rw [if_pos h]
      exact (ih.cons y).trans (List.Perm.swap x y ys)
    · show (if strLt y x then y :: insertS x ys else x :: y :: ys).Perm _
      rw [if_neg h]

theorem sortS_perm (l : List String) : (sortS l).Perm l := by
  induction l with
  | nil => exact List.Perm.refl _
  | cons x xs ih => exact (insertS_perm x (sortS xs)).trans (ih.cons x)

theorem sortedFids_nodup (df : DF) : (sortedFids df).Nodup :=
  (sortS_perm _).symm.nodup (List.nodup_dedup _)

theorem filter_flatMap_single {fids : List String} (hnd : fids.Nodup) (f : String)
    (G : String → List (String × String × List (String × Val)))
    (hG : ∀ f' x, x ∈ G f' → x.1 = f') :
    (fids.flatMap G).filter (fun x => decide (x.1 = f))
      = if f ∈ fids then G f else [] := by
  induction fids with
  | nil => simp
  | cons a t ih =>
    rw [List.flatMap_cons, List.filter_append, ih (List.nodup_cons.mp hnd).2]
    by_cases haf : a = f
    · subst haf
      have h1 : (G a).filter (fun x => decide (x.1 = a)) = G a := by
        rw [List.filter_eq_self]
        intro x hx
        simpa using hG a x hx
      rw [h1, if_neg (List.nodup_cons.mp hnd).1, if_pos (List.mem_cons_self a t),
        List.append_nil]
    · have h1 : (G a).filter (fun x => decide (x.1 = f)) = [] := by
        rw [List.filter_eq_nil_iff]
        intro x hx
        simp [hG a x hx, haf]
      rw [h1, List.nil_append]
      by_cases hft : f ∈ t
      · rw [if_pos hft, if_pos (List.mem_cons_of_mem a hft)]
      · rw [if_neg hft,
          if_neg (fun hh => (List.mem_cons.mp hh).elim (fun he => haf he.symm) hft)]

/-! ## Claim C7 -/

/-- C7: for every fleet table, grouping by hour draws bucket labels only
from the fixed 24-entry 12-hour-clock enumeration, and within each flight
the bucket sequence of the grouped table is a sublist of that enumeration,
hence ordered 12 AM → 11 PM regardless of which hours occur. -/
theorem C7_hour_bucket_enumeration (df : DF) (ms : List String) (f : String) :
    (∀ x ∈ avgVals df GroupKey.hour ms, x.2.1 ∈ hourOrder) ∧
    (((avgVals df GroupKey.hour ms).filter (fun x => decide (x.1 = f))).map
      (fun x => x.2.1)).Sublist hourOrder := by
  constructor
  · intro x hx
    rw [avgVals_eq, List.mem_flatMap] at hx
    obtain ⟨f', _, hx⟩ := hx
    exact (mem_filterMap_ite hx).2
  · rw [avgVals_eq,
      filter_flatMap_single (sortedFids_nodup df) f _
        (fun f' x hx => (mem_filterMap_ite hx).1)]
    by_cases hf : f ∈ sortedFids df
    · rw [if_pos hf]
      exact map_proj_filterMap_ite _ _ _ _
    · rw [if_neg hf]
      exact List.nil_sublist _

/-! ## Claim C8 -/

/-- C8 (amended): an unsupported chart style raises the validation error —
and hence returns no chart tables — whenever the grouped table and the
metric map are nonempty; with an empty grouped table the chart loop never
runs and an empty chart set is returned without error. -/
theorem C8_unsupported_style_error (df : DF) (k : GroupKey)
    (metrics : List (String × String)) (ct : String) (d1 : DF)
    (h1 : ct ≠ "line") (h2 : ct ≠ "bar") (hadd : addGroupCol df k = some d1)
    (hg : avgVals d1 k (metrics.map Prod.fst) ≠ []) (hm : metrics ≠ []) :
    plotFlightMetrics df k metrics ct
      = Except.error "ValueError: Unsupported chart_type. Use line or bar." := by
  have hg1 : (avgVals d1 k (metrics.map Prod.fst)).isEmpty = false :=
    List.isEmpty_eq_false.mpr hg
  have hne : ((metrics.map Prod.snd).dedup).isEmpty = false := by
    rw [List.isEmpty_eq_false]
    obtain ⟨p, t, rfl⟩ := List.exists_cons_of_ne_nil hm
    have hp : p.2 ∈ ((p :: t).map Prod.snd).dedup := List.mem_dedup.mpr (by simp)
    exact List.ne_nil_of_mem hp
  simp only [plotFlightMetrics, hadd, hg1, Bool.false_eq_true, if_false, hne]
  rw [if_neg (fun hor => hor.elim h1 h2)]

/-- Witness for the amended C8: a one-row fleet table, the script's metric
map and the style "pie" hit the validation error. -/
theorem C8_unsupported_style_error_witness :
    (("pie" : String) ≠ "line" ∧ ("pie" : String) ≠ "bar" ∧
      addGroupCol w8Fleet GroupKey.month = some w8Grouped ∧
      avgVals w8Grouped GroupKey.month (scriptMetrics.map Prod.fst) ≠ [] ∧
      scriptMetrics ≠ []) ∧
    plotFlightMetrics w8Fleet GroupKey.month scriptMetrics "pie"
      = Except.error "ValueError: Unsupported chart_type. Use line or bar." :=
  ⟨⟨by decide, by decide, by decide, by decide, by decide⟩,
    C8_unsupported_style_error w8Fleet GroupKey.month scriptMetrics "pie" w8Grouped
      (by decide) (by decide) (by decide) (by decide) (by decide)⟩

/-- Counterexample to C8 as stated: on a fleet table with the chart columns
but no rows, the style "pie" does not raise a validation error — the
grouper returns an empty chart set successfully, because the per-metric
loop that contains the raise never runs. -/
theorem C8_counterexample_empty_table :
    plotFlightMetrics c8EmptyFleet GroupKey.month scriptMetrics "pie"
      = Except.ok [] := by
  decide

/-! ## Claim C10 -/

theorem setColF_cols_of_notMem (df : DF) (c : String) (F : Row → Val)
    (h : c ∉ df.cols) : (setColF df c F).cols = df.cols ++ [c] := by
  show (if c ∈ df.cols then df.cols else df.cols ++ [c]) = _
  rw [if_neg h]

theorem setColF_cols_of_mem (df : DF) (c : String) (F : Row → Val)
    (h : c ∈ df.cols) : (setColF df c F).cols = df.cols := by
  show (if c ∈ df.cols then df.cols else df.cols ++ [c]) = _
  rw [if_pos h]

/-- C10: on success, the grouper's bucket-column derivation mutates the
frame in place: the new column named after the grouping key is appended,
holding the derived bucket labels, while every pre-existing column's cells
and the row order are unchanged. -/
theorem C10_grouper_mutates_in_place (df : DF) (k : GroupKey) (df' : DF)
    (hg : gName k ∉ df.cols) (h : addGroupCol df k = some df') :
    df'.cols = df.cols ++ [gName k] ∧
    List.Forall₂ (fun r r' =>
      (∀ c ∈ df.cols, getVal r' c = getVal r c) ∧
      getVal r' (gName k) = bucketLabel k r)
      df.rows df'.rows := by
  have hcne : ∀ c ∈ df.cols, c ≠ gName k := fun c hc he => hg (he ▸ hc)
  cases k with
  | month =>
    simp only [addGroupCol] at h
    obtain rfl := Option.some.inj h
    have hgl : ("month" : String) ∉ df.cols := hg
    constructor
    · simp only [mapColV]
      rw [setColF_cols_of_mem _ _ _ (by
          rw [setColF_cols_of_notMem _ _ _ hgl]
          exact List.mem_append_right _ (List.mem_cons_self _ _)),
        setColF_cols_of_notMem _ _ _ hgl]
      rfl
    · simp only [mapColV, setColF, List.map_map]
      rw [List.forall₂_map_right_iff, List.forall₂_same]
      intro r _
      constructor
      · intro c hc
        have hne : c ≠ ("month" : String) := hcne c hc
        simp only [Function.comp, getVal_setIn_ne _ _ hne]
      · rw [show gName GroupKey.month = ("month" : String) from rfl]
        simp only [Function.comp, getVal_setIn_self]
        rfl
  | weekday =>
    simp only [addGroupCol] at h
    obtain rfl := Option.some.inj h
    have hgl : ("weekday" : String) ∉ df.cols := hg
    constructor
    · simp only [mapColV]
      rw [setColF_cols_of_mem _ _ _ (by
          rw [setColF_cols_of_notMem _ _ _ hgl]
          exact List.mem_append_right _ (List.mem_cons_self _ _)),
        setColF_cols_of_notMem _ _ _ hgl]
      rfl
    · simp only [mapColV, setColF, List.map_map]
      rw [List.forall₂_map_right_iff, List.forall₂_same]
      intro r _
      constructor
      · intro c hc
        have hne : c ≠ ("weekday" : String) := hcne c hc
        simp only [Function.comp, getVal_setIn_ne _ _ hne]
      · rw [show gName GroupKey.weekday = ("weekday" : String) from rfl]
        simp only [Function.comp, getVal_setIn_self]
        rfl
  | hour =>
    simp only [addGroupCol] at h
    have hgl : ("hour" : String) ∉ df.cols := hg
    rcases hna : (colVals (setColF df "hour"
        (fun r => hourNumV (getVal r "time"))) "hour").any Val.isNa
    · rw [hna] at h
      simp only [Bool.false_eq_true, if_false] at h
      obtain rfl := Option.some.inj h
      have hmem1 : ("hour" : String) ∈ (setColF df "hour"
          (fun r => hourNumV (getVal r "time"))).cols := by
        rw [setColF_cols_of_notMem _ _ _ hgl]
        exact List.mem_append_right _ (List.mem_cons_self _ _)
      constructor
      · simp only [mapColV]
        rw [setColF_cols_of_mem _ _ _ (by
            rw [setColF_cols_of_mem _ _ _ hmem1]
            exact hmem1),
          setColF_cols_of_mem _ _ _ hmem1, setColF_cols_of_notMem _ _ _ hgl]
        rfl
      · simp only [mapColV, setColF, List.map_map]
        rw [List.forall₂_map_right_iff, List.forall₂_same]
        intro r _
        constructor
        · intro c hc
          have hne : c ≠ ("hour" : String) := hcne c hc
          simp only [Function.comp, getVal_setIn_ne _ _ hne]
        · rw [show gName GroupKey.hour = ("hour" : String) from rfl]
          simp only [Function.comp, getVal_setIn_self]
          rfl
    · rw [hna] at h
      simp only [if_true] at h
      cases h
  | year =>
    simp only [addGroupCol] at h
    obtain rfl := Option.some.inj h
    have hgl : ("year" : String) ∉ df.cols := hg
    constructor
    · rw [setColF_cols_of_notMem _ _ _ hgl]
      rfl
    · simp only [setColF]
      rw [List.forall₂_map_right_iff, List.forall₂_same]
      intro r _
      constructor
      · intro c hc
        have hne : c ≠ ("year" : String) := hcne c hc
        simp only [getVal_setIn_ne _ _ hne]
      · rw [show gName GroupKey.year = ("year" : String) from rfl]
        simp only [getVal_setIn_self]
        rfl

/-- Witness for C10: the month key on a one-row fleet table without a
"month" column. -/
theorem C10_grouper_mutates_in_place_witness :
    (("month" : String) ∉ w8Fleet.cols ∧
      addGroupCol w8Fleet GroupKey.month = some w8Grouped) ∧
    (w8Grouped.cols = w8Fleet.cols ++ ["month"] ∧
      List.Forall₂ (fun r r' =>
        (∀ c ∈ w8Fleet.cols, getVal r' c = getVal r c) ∧
        getVal r' (gName GroupKey.month) = bucketLabel GroupKey.month r)
        w8Fleet.rows w8Grouped.rows) :=
  ⟨⟨by decide, by decide⟩,
    C10_grouper_mutates_in_place w8Fleet GroupKey.month w8Grouped
      (by decide) (by decide)⟩

end Drone
